/-
Verification of the threadmine conversation-mining pipeline.

This file gives a shallow embedding, in Lean 4, of the core subsystem of the
threadmine repository: the cross-source normalizer (internal/normalize),
the reply graph (internal/graph), the heuristic classifier
(internal/classify) and the rate limiter (internal/db/ratelimit.go), and
proves or refutes the behavioural claims stated about them.

Modelling conventions:
- Go strings are Lean `String`s; byte-level operations are noted where Go
  uses byte lengths (`String.utf8ByteSize`).
- Go `float64` confidence scores are modelled as rationals; every comparison
  appearing in the code (thresholds 0.2/0.25/0.6/1.0 against sums of the
  fixed weights 0.1 .. 0.5) has slack far above any binary64 rounding error,
  so the rational model decides each comparison exactly as float64 does.
- `time.Time` values are never inspected by the verified operations (they are
  carried through records untouched), so they are modelled opaquely by their
  source representation (`GoTime := String`), and calls to `time.Now()` are
  modelled by an explicit clock argument.
- Go maps are modelled by association lists with update-in-place insertion
  (key sets stay duplicate-free, and iteration order is irrelevant to every
  verified quantity).
- The regular expressions used by the sources compile to deterministic
  scanners for their specific patterns (each quantifier in them is over a
  character class disjoint from the character that follows, so Go's
  leftmost-first matching never backtracks); the scanners implement exactly
  that leftmost, non-overlapping matching.
- Functions whose Go recursion is not structurally terminating (the reply
  graph traversals, which the source runs without a visited set) are
  embedded with an explicit step-count (`fuel`); `none` means the recursion
  did not complete within the given number of steps, and a result of `none`
  for every fuel value means the Go recursion diverges.
-/
import Mathlib

/- The Batteries rational-number operations are sealed; the concrete
evaluations below need them to unfold. -/
attribute [local semireducible] Rat.add Rat.ofScientific Rat.inv

namespace ThreadMine

/-! ## String helpers (models of Go's `strings` package operations) -/

/-- Model of `strings.Contains`: `sub` occurs as a substring of `l`. -/
def listContainsSub (sub : List Char) : List Char → Bool
  | [] => sub.isEmpty
  | c :: t => sub.isPrefixOf (c :: t) || listContainsSub sub t

/-- Model of `strings.Contains` on `String`s. -/
def strContains (s sub : String) : Bool :=
  listContainsSub sub.data s.data

/-- Model of `strings.HasPrefix` on `String`s. -/
def strStartsWith (s pre : String) : Bool :=
  pre.data.isPrefixOf s.data

/-- Model of `strings.ToLower` (`Char.toLower` lowers exactly ASCII letters;
all texts and phrase lists in play are ASCII or case-free symbols). -/
def goToLower (s : String) : String :=
  (s.data.map Char.toLower).asString

/-- The space set of `unicode.IsSpace` restricted to Latin-1 (the only code
points the pipeline's texts can contain that `unicode.IsSpace` accepts). -/
def isGoSpace (c : Char) : Bool :=
  c = ' ' || c = '\t' || c = '\n' || c = '\x0b' || c = '\x0c' || c = '\r' ||
  c = '\x85' || c = '\xa0'

/-- Model of `strings.TrimSpace`. -/
def goTrimSpace (s : String) : String :=
  (((s.data.dropWhile isGoSpace).reverse.dropWhile isGoSpace).reverse).asString

/-- Model of `len` on a Go string: the UTF-8 byte length. -/
def goLen (s : String) : Nat :=
  s.utf8ByteSize

/-! ## Normalized schema (internal/normalize/schema.go) -/

/-- Opaque model of `time.Time` values: they are carried but never inspected
by any verified operation, so we keep their source representation. -/
abbrev GoTime := String

/-- `normalize.User`. -/
structure User where
  ID : String
  SourceType : String
  SourceID : String
  DisplayName : String
  RealName : String
  Email : String
  AvatarURL : String
  CanonicalID : String
  AlternateIDs : List String
  deriving DecidableEq

/-- `normalize.Channel` (`Type` in Go is `ctype` here: `Type` is a Lean
keyword). -/
structure Channel where
  ID : String
  SourceType : String
  SourceID : String
  Name : String
  DisplayName : String
  ctype : String
  IsPrivate : Bool
  ParentSpace : String
  deriving DecidableEq

/-- `normalize.Attachment` (`Type` in Go is `ctype` here). -/
structure Attachment where
  ctype : String
  URL : String
  Title : String
  MimeType : String
  deriving DecidableEq

/-- `normalize.CodeBlock`. -/
structure CodeBlock where
  Language : String
  Code : String
  deriving DecidableEq

/-- Values stored in the opaque `source_metadata` pass-through map
(`map[string]interface{}` in Go; the pipeline only ever stores these shapes
and never reads them back). -/
inductive MetaValue where
  | str (v : String)
  | int (v : Int)
  | time (v : GoTime)
  | optTime (v : Option GoTime)
  deriving DecidableEq

/-- `normalize.SchemaVersion`. -/
def SchemaVersion : String := "1.0"

/-- `normalize.NormalizedMessage`: the canonical cross-source message. -/
structure NormalizedMessage where
  ID : String
  SourceType : String
  SourceID : String
  Timestamp : GoTime
  Author : Option User
  Content : String
  ContentHTML : String
  Channel : Option Channel
  ThreadID : String
  ParentID : String
  IsThreadRoot : Bool
  Attachments : List Attachment
  Mentions : List String
  URLs : List String
  CodeBlocks : List CodeBlock
  SourceMetadata : List (String × MetaValue)
  FetchedAt : GoTime
  NormalizedAt : GoTime
  SchemaVersion : String
  deriving DecidableEq

/-! ## Classifier (internal/classify, `ClassifyMessage` and detectors) -/

/-- `classify.Classification` (`Type` in Go is `ctype` here: `Type` is a
Lean keyword); confidence is rational, see the header note on floats. -/
structure Classification where
  ctype : String
  Confidence : ℚ
  Signals : List String
  deriving DecidableEq

/-- `classify.ThreadContext`. -/
structure ThreadContext where
  HasQuestion : Bool
  QuestionAuthor : String
  IsThreadRoot : Bool
  Position : Int
  deriving DecidableEq

/-- The question-starter phrase list of `classifyQuestion`. -/
def questionStarters : List String :=
  ["how do i", "how can i", "how to", "how would",
   "what is", "what's", "what are", "what if",
   "where is", "where can", "where do",
   "when should", "when do", "when is",
   "why does", "why is", "why would",
   "who can", "who is", "who knows",
   "can someone", "can anyone", "could someone",
   "is there", "are there",
   "does anyone", "does someone",
   "has anyone", "has someone",
   "should i", "would it",
   "any ideas", "anyone know"]

/-- The help-seeking phrase list of `classifyQuestion`. -/
def helpPhrases : List String :=
  ["help", "stuck", "issue", "problem", "error",
   "not working", "doesn't work", "can't get", "unable to",
   "trying to", "need to", "want to",
   "anyone else", "has anyone"]

/-- `classify.classifyQuestion`. -/
def classifyQuestion (msg : NormalizedMessage) : Option Classification :=
  let content := goToLower msg.Content
  let p1 := strContains content "?"
  let s1 : List String := if p1 then ["question_mark"] else []
  let c1 : ℚ := if p1 then 0.4 else 0
  let m2 := questionStarters.find? (fun st => strStartsWith content st)
  let s2 : List String := match m2 with
    | some st => ["question_starter:" ++ st]
    | none => []
  let c2 : ℚ := match m2 with
    | some _ => 0.5
    | none => 0
  let m3 := helpPhrases.find? (fun ph => strContains content ph)
  let s3 : List String := match m3 with
    | some ph => ["help_phrase:" ++ ph]
    | none => []
  let c3 : ℚ := match m3 with
    | some _ => 0.2
    | none => 0
  let signals := s1 ++ s2 ++ s3
  let confidence := c1 + c2 + c3
  if signals = [] then none
  else
    let confidence := if confidence > 1 then 1 else confidence
    if confidence < 0.2 then none
    else some ⟨"question", confidence, signals⟩

/-- The answer-phrase list of `classifyAnswer`. -/
def answerPhrases : List String :=
  ["you can", "you should", "you need to", "you have to",
   "try this", "try using", "try adding",
   "the solution", "the answer", "the fix",
   "i think", "i believe", "i suggest",
   "here's how", "here is how",
   "check out", "take a look",
   "you might want", "you could"]

/-- `classify.classifyAnswer`. -/
def classifyAnswer (msg : NormalizedMessage) (ctx : ThreadContext) :
    Option Classification :=
  if !ctx.HasQuestion then none
  else if ctx.IsThreadRoot then none
  else
    let content := goToLower msg.Content
    let signals : List String := ["in_question_thread"]
    let confidence : ℚ := 0.3
    let m1 := answerPhrases.find? (fun ph => strContains content ph)
    let signals := signals ++ (match m1 with
      | some ph => ["answer_phrase:" ++ ph]
      | none => [])
    let confidence := confidence + (match m1 with
      | some _ => (0.2 : ℚ)
      | none => 0)
    let p2 := msg.CodeBlocks.length > 0
    let signals := signals ++ (if p2 then ["contains_code"] else [])
    let confidence := confidence + (if p2 then (0.2 : ℚ) else 0)
    let p3 := msg.URLs.length > 0
    let signals := signals ++ (if p3 then ["contains_urls"] else [])
    let confidence := confidence + (if p3 then (0.1 : ℚ) else 0)
    let p4 := goLen msg.Content > 100
    let signals := signals ++ (if p4 then ["substantive_length"] else [])
    let confidence := confidence + (if p4 then (0.1 : ℚ) else 0)
    let confidence := if confidence > 1 then 1 else confidence
    if signals.length ≤ 1 then none
    else some ⟨"answer", confidence, signals⟩

/-- The solution-phrase list of `classifySolution`. -/
def solutionPhrases : List String :=
  ["try this", "try adding", "try changing",
   "here's a fix", "here's the fix", "here's how",
   "you can fix", "to fix this", "the fix is",
   "the solution", "solution is",
   "this should work", "this will work",
   "this fixes", "this solved"]

/-- The documentation-URL indicator list of `classifySolution`. -/
def docPatterns : List String :=
  ["docs.", "documentation", "/docs/",
   "stackoverflow", "github.com",
   "tutorial", "example", "guide"]

/-- Scan for an occurrence of `"step "` immediately followed by a digit:
the model of `regexp step \d+` existence over the content. -/
def hasStepNumber : List Char → Bool
  | [] => false
  | c :: t =>
    ("step ".data.isPrefixOf (c :: t) &&
      (match (c :: t).drop 5 with
       | d :: _ => d.isDigit
       | [] => false)) ||
    hasStepNumber t

/-- Drop everything up to and including the first occurrence of `p`;
`none` when `p` does not occur. -/
def dropThroughMatch (p : List Char) : List Char → Option (List Char)
  | [] => if p.isEmpty then some [] else none
  | c :: t =>
    if p.isPrefixOf (c :: t) then some ((c :: t).drop p.length)
    else dropThroughMatch p t

/-- Occurrence of each pattern in turn, later ones strictly after the
matched text of earlier ones: the model of `p1.*p2.*p3` existence on a
newline-free segment. -/
def seqContains (l : List Char) : List (List Char) → Bool
  | [] => true
  | p :: ps =>
    match dropThroughMatch p l with
    | some rest => seqContains rest ps
    | none => false

/-- Split a character list at newlines (model of splitting a Go string into
its lines; `splitLines [] = [[]]` as for `strings.Split(s, "\n")`). -/
def splitLines : List Char → List (List Char)
  | [] => [[]]
  | c :: t =>
    if c = '\n' then [] :: splitLines t
    else
      match splitLines t with
      | h :: r => (c :: h) :: r
      | [] => [[c]]

/-- The step/instruction patterns of `classifySolution`, evaluated on the
lowercased content.  `(?m)^` anchors at the content start and after each
newline, i.e. at the start of each line; the un-flagged
`first.*then.*finally` cannot cross a newline since `.` excludes it. -/
def hasStepPattern (content : String) : Bool :=
  let ls := splitLines content.data
  (ls.any (fun ln => "1.".data.isPrefixOf ln || "1)".data.isPrefixOf ln)) ||
  (ls.any (fun ln =>
    "- ".data.isPrefixOf ln || "* ".data.isPrefixOf ln || "• ".data.isPrefixOf ln)) ||
  (ls.any (fun ln => seqContains ln ["first".data, "then".data, "finally".data])) ||
  hasStepNumber content.data

/-- `classify.classifySolution`. -/
def classifySolution (msg : NormalizedMessage) : Option Classification :=
  let content := goToLower msg.Content
  let p1 := msg.CodeBlocks.length > 0
  let s1 : List String := if p1 then ["code_block"] else []
  let c1 : ℚ := if p1 then 0.4 else 0
  let m2 := solutionPhrases.find? (fun ph => strContains content ph)
  let s2 : List String := match m2 with
    | some ph => ["solution_phrase:" ++ ph]
    | none => []
  let c2 : ℚ := match m2 with
    | some _ => 0.3
    | none => 0
  let p3 := hasStepPattern content
  let s3 : List String := if p3 then ["contains_steps"] else []
  let c3 : ℚ := if p3 then 0.2 else 0
  -- the URL loop appends one `reference_url` signal (and 0.25) per matching URL
  let urlAcc := msg.URLs.foldl
    (fun (acc : List String × ℚ) url =>
      if docPatterns.any (fun pat => strContains (goToLower url) pat) then
        (acc.1 ++ ["reference_url"], acc.2 + 0.25)
      else acc)
    ([], 0)
  let signals := s1 ++ s2 ++ s3 ++ urlAcc.1
  let confidence := c1 + c2 + c3 + urlAcc.2
  if signals = [] then none
  else
    let confidence := if confidence > 1 then 1 else confidence
    if confidence < 0.25 then none
    else some ⟨"solution", confidence, signals⟩

/-- The thanks-phrase list of `classifyAcknowledgment`. -/
def thankPhrases : List String :=
  ["thank", "thanks", "thx", "ty",
   "appreciate", "grateful"]

/-- The success-phrase list of `classifyAcknowledgment`. -/
def successPhrases : List String :=
  ["worked", "works", "working",
   "fixed", "solved", "resolved",
   "that did it", "that worked", "that fixed",
   "perfect", "exactly what i needed",
   "this solved", "this fixed",
   "got it working", "got it to work"]

/-- The positive emoji/word list of `classifyAcknowledgment`. -/
def positiveIndicators : List String :=
  ["👍", "✓", "✔", ":+1:", ":check:", ":white_check_mark:",
   "awesome", "great", "excellent", "brilliant"]

/-- The short-affirmative list of `classifyAcknowledgment`. -/
def affirmatives : List String :=
  ["yes!", "yep", "yup", "yeah",
   "perfect", "exactly"]

/-- `classify.classifyAcknowledgment`. -/
def classifyAcknowledgment (msg : NormalizedMessage) : Option Classification :=
  let content := goToLower msg.Content
  let m1 := thankPhrases.find? (fun ph => strContains content ph)
  let s1 : List String := match m1 with
    | some ph => ["thanks:" ++ ph]
    | none => []
  let c1 : ℚ := match m1 with
    | some _ => 0.3
    | none => 0
  let m2 := successPhrases.find? (fun ph => strContains content ph)
  let s2 : List String := match m2 with
    | some ph => ["success:" ++ ph]
    | none => []
  let c2 : ℚ := match m2 with
    | some _ => 0.4
    | none => 0
  let p3 := (positiveIndicators.find? (fun ind =>
    strContains content ind || strContains msg.Content ind)).isSome
  let s3 : List String := if p3 then ["positive_indicator"] else []
  let c3 : ℚ := if p3 then 0.2 else 0
  let contentTrimmed := goTrimSpace content
  let m4 := affirmatives.find? (fun a =>
    contentTrimmed = a || contentTrimmed = a ++ "!")
  let s4 : List String := match m4 with
    | some a => ["affirmative:" ++ a]
    | none => []
  let c4 : ℚ := match m4 with
    | some _ => 0.25
    | none => 0
  let signals := s1 ++ s2 ++ s3 ++ s4
  let confidence := c1 + c2 + c3 + c4
  if signals = [] then none
  else
    let confidence := if confidence > 1 then 1 else confidence
    if confidence < 0.2 then none
    else some ⟨"acknowledgment", confidence, signals⟩

/-- `classify.ClassifyMessage`: runs the four detectors in order; the answer
detector only when a thread context is supplied. -/
def classifyMessage (msg : NormalizedMessage) (threadContext : Option ThreadContext) :
    List Classification :=
  (classifyQuestion msg).toList ++
  (match threadContext with
   | some ctx => (classifyAnswer msg ctx).toList
   | none => []) ++
  (classifySolution msg).toList ++
  (classifyAcknowledgment msg).toList

/-! ## Reply graph (internal/graph/graph.go) -/

/-- `graph.MessageNode`. -/
structure MessageNode where
  MessageID : String
  ThreadID : String
  ParentID : String
  IsThreadRoot : Bool
  Author : String
  Timestamp : GoTime
  Channel : String
  SourceType : String
  deriving DecidableEq

/-- `graph.ReplyGraph`.  The two Go maps are association lists whose key
sets stay duplicate-free (inserts update in place). -/
structure ReplyGraph where
  Nodes : List (String × MessageNode)
  Adjacency : List (String × List String)
  ThreadRoots : List String
  UpdatedAt : GoTime
  deriving DecidableEq

/-- Go map lookup on an association list. -/
def lookupA {α : Type} : List (String × α) → String → Option α
  | [], _ => none
  | e :: t, k => if e.1 = k then some e.2 else lookupA t k

/-- Go map assignment `m[k] = v`: update in place, else append. -/
def insertA {α : Type} (m : List (String × α)) (k : String) (v : α) :
    List (String × α) :=
  match m with
  | [] => [(k, v)]
  | e :: t => if e.1 = k then (k, v) :: t else e :: insertA t k v

/-- Go `m[k] = append(m[k], v)`: append to the entry, creating it if the
key is absent (a missing map key reads as `nil`). -/
def appendAdj (m : List (String × List String)) (k : String) (v : String) :
    List (String × List String) :=
  match m with
  | [] => [(k, [v])]
  | e :: t => if e.1 = k then (k, e.2 ++ [v]) :: t else e :: appendAdj t k v

/-- `graph.NewReplyGraph` (the `time.Now()` stamp is the explicit clock). -/
def newReplyGraph (now : GoTime) : ReplyGraph :=
  ⟨[], [], [], now⟩

/-- The node `AddMessage` builds from a normalized message. -/
def mkNode (msg : NormalizedMessage) : MessageNode :=
  { MessageID := msg.ID
    ThreadID := msg.ThreadID
    ParentID := msg.ParentID
    IsThreadRoot := msg.IsThreadRoot
    Author := match msg.Author with
      | some u => u.ID
      | none => ""
    Timestamp := msg.Timestamp
    Channel := match msg.Channel with
      | some c => c.ID
      | none => ""
    SourceType := msg.SourceType }

/-- `(*ReplyGraph).AddMessage`. -/
def addMessage (now : GoTime) (g : ReplyGraph) (msg : NormalizedMessage) :
    ReplyGraph :=
  { Nodes := insertA g.Nodes msg.ID (mkNode msg)
    ThreadRoots := if msg.IsThreadRoot then g.ThreadRoots ++ [msg.ID] else g.ThreadRoots
    Adjacency := if msg.ParentID ≠ "" then appendAdj g.Adjacency msg.ParentID msg.ID
      else g.Adjacency
    UpdatedAt := now }

/-- `(*ReplyGraph).GetChildren` (a missing key reads as the empty slice). -/
def getChildren (g : ReplyGraph) (messageID : String) : List String :=
  (lookupA g.Adjacency messageID).getD []

/-- `graph.BuildFromNormalizedMessages`. -/
def buildFromNormalizedMessages (now : GoTime) (messages : List NormalizedMessage) :
    ReplyGraph :=
  messages.foldl (addMessage now) (newReplyGraph now)

/-- `collectThreadMessages`, the recursive pre-order walk of `GetThread`.
The Go recursion carries no visited set and no structural bound, so it is
embedded with a step count: each constructor step of the walk consumes one
unit of fuel, and `none` reports that the walk did not finish within
`fuel` steps.  `collectTM g fuel cs acc` walks the pending child list `cs`
with accumulated output `acc`. -/
def collectTM (g : ReplyGraph) : Nat → List String → List MessageNode →
    Option (List MessageNode)
  | _, [], acc => some acc
  | 0, _ :: _, _ => none
  | n + 1, c :: cs, acc =>
    match lookupA g.Nodes c with
    | none => collectTM g n cs acc
    | some node =>
      match collectTM g n (getChildren g c) (acc ++ [node]) with
      | none => none
      | some acc2 => collectTM g n cs acc2

/-- `(*ReplyGraph).GetThread`, fuelled like `collectTM`. -/
def getThreadF (g : ReplyGraph) (fuel : Nat) (rootID : String) :
    Option (List MessageNode) :=
  match lookupA g.Nodes rootID with
  | none => some []
  | some root => collectTM g fuel (getChildren g rootID) [root]

/-- `calculateDepth`, the recursive walk of `GetThreadDepth`, fuelled like
`collectTM`: `depthList g fuel cs cur acc` folds the children `cs` of a
node at depth `cur`, with `acc` the maximum found so far. -/
def depthList (g : ReplyGraph) : Nat → List String → Nat → Nat → Option Nat
  | _, [], _, acc => some acc
  | 0, _ :: _, _, _ => none
  | n + 1, c :: cs, cur, acc =>
    let cc := getChildren g c
    match (match cc with
           | [] => some (cur + 1)
           | _ :: _ => depthList g n cc (cur + 1) (cur + 1)) with
    | none => none
    | some d => depthList g n cs cur (max acc d)

/-- `(*ReplyGraph).GetThreadDepth`, fuelled. -/
def getThreadDepthF (g : ReplyGraph) (fuel : Nat) (rootID : String) : Option Nat :=
  match lookupA g.Nodes rootID with
  | none => some 0
  | some _ =>
    match getChildren g rootID with
    | [] => some 0
    | cc => depthList g fuel cc 0 0

/-- The record returned by `(*ReplyGraph).Stats` (sans the timestamp). -/
structure GraphStats where
  total_messages : Nat
  thread_count : Nat
  reply_messages : Int
  messages_with_replies : Nat
  average_thread_depth : ℚ
  deriving DecidableEq

/-- `(*ReplyGraph).Stats`, fuelled through the depth walks. -/
def statsF (g : ReplyGraph) (fuel : Nat) : Option GraphStats :=
  let threadCount := g.ThreadRoots.length
  let totalMessages := g.Nodes.length
  let replyMessages : Int := (totalMessages : Int) - (threadCount : Int)
  let totalDepth? := g.ThreadRoots.foldl
    (fun acc r =>
      match acc, getThreadDepthF g fuel r with
      | some t, some d => some (t + d)
      | _, _ => none)
    (some 0)
  match totalDepth? with
  | none => none
  | some totalDepth =>
    some
      { total_messages := totalMessages
        thread_count := threadCount
        reply_messages := replyMessages
        messages_with_replies :=
          (g.Adjacency.filter (fun e => e.2.length > 0)).length
        average_thread_depth :=
          if threadCount > 0 then (totalDepth : ℚ) / (threadCount : ℚ) else 0 }

/-! ## Slack normalizer (internal/normalize/slack.go)

The four compiled patterns (`userMentionPattern`, `channelPattern`,
`urlPattern`, `codeBlockPattern`) are deterministic: every quantified
sub-expression ranges over a character class that excludes the character
required next, so Go's leftmost-first matching is exactly the greedy
scan implemented here.  Each matcher, applied at a position, returns the
submatches and the total matched length, or `none`. -/

/-- The class `[A-Z0-9]` of the mention/channel id patterns. -/
def isUpperDigit (c : Char) : Bool :=
  ('A' ≤ c && c ≤ 'Z') || ('0' ≤ c && c ≤ '9')

/-- Matcher of `userMentionPattern`, regex `<@([A-Z0-9]+)(\|([^>]+))?>`:
returns (id, label — empty when the optional group is absent, length). -/
def matchUserMention : List Char → Option (String × String × Nat)
  | '<' :: '@' :: rest =>
    let sp := rest.span isUpperDigit
    if sp.1.isEmpty then none
    else
      match sp.2 with
      | '>' :: _ => some (sp.1.asString, "", sp.1.length + 3)
      | '|' :: r2 =>
        let sl := r2.span (fun c => c ≠ '>')
        if sl.1.isEmpty then none
        else
          match sl.2 with
          | '>' :: _ => some (sp.1.asString, sl.1.asString, sp.1.length + sl.1.length + 4)
          | _ => none
      | _ => none
  | _ => none

/-- Matcher of `channelPattern`, regex `<#([A-Z0-9]+)(\|([^>]+))?>`. -/
def matchChannelRef : List Char → Option (String × String × Nat)
  | '<' :: '#' :: rest =>
    let sp := rest.span isUpperDigit
    if sp.1.isEmpty then none
    else
      match sp.2 with
      | '>' :: _ => some (sp.1.asString, "", sp.1.length + 3)
      | '|' :: r2 =>
        let sl := r2.span (fun c => c ≠ '>')
        if sl.1.isEmpty then none
        else
          match sl.2 with
          | '>' :: _ => some (sp.1.asString, sl.1.asString, sp.1.length + sl.1.length + 4)
          | _ => none
      | _ => none
  | _ => none

/-- Matcher of `urlPattern`, regex `<(https?://[^|>]+)(\|([^>]+))?>`:
returns (url, label, length). -/
def matchSlackUrl : List Char → Option (String × String × Nat)
  | '<' :: rest =>
    let scheme? : Option (String × List Char) :=
      if "https://".data.isPrefixOf rest then some ("https://", rest.drop 8)
      else if "http://".data.isPrefixOf rest then some ("http://", rest.drop 7)
      else none
    match scheme? with
    | none => none
    | some (scheme, r1) =>
      let sb := r1.span (fun c => c ≠ '|' && c ≠ '>')
      if sb.1.isEmpty then none
      else
        match sb.2 with
        | '>' :: _ =>
          some (scheme ++ sb.1.asString, "", scheme.length + sb.1.length + 2)
        | '|' :: r3 =>
          let sl := r3.span (fun c => c ≠ '>')
          if sl.1.isEmpty then none
          else
            match sl.2 with
            | '>' :: _ =>
              some (scheme ++ sb.1.asString, sl.1.asString,
                scheme.length + sb.1.length + sl.1.length + 3)
            | _ => none
        | _ => none
  | _ => none

/-- Matcher of `codeBlockPattern` (shared by the Slack and GitHub
normalizers), regex ```` ```([a-z]*)\n([^`]+)``` ````: returns
(language, code, length). -/
def matchFencedBlock (l : List Char) : Option (String × String × Nat) :=
  if "```".data.isPrefixOf l then
    let r0 := l.drop 3
    let sl := r0.span (fun c => 'a' ≤ c && c ≤ 'z')
    match sl.2 with
    | '\n' :: r2 =>
      let sc := r2.span (fun c => c ≠ '`')
      if sc.1.isEmpty then none
      else if "```".data.isPrefixOf sc.2 then
        some (sl.1.asString, sc.1.asString, sl.1.length + sc.1.length + 7)
      else none
    | _ => none
  else none

/-- `ReplaceAllStringFunc` for `userMentionPattern` with the replacement
function of `normalizeSlackText` (`@label`, falling back to `@ID`).
The first argument is fuel, always instantiated with the input length:
each step consumes at least one character, so it never runs out. -/
def replaceMentionsF : Nat → List Char → List Char
  | _, [] => []
  | 0, l => l
  | n + 1, c :: cs =>
    match matchUserMention (c :: cs) with
    | some (id, lab, len) =>
      (if lab ≠ "" then "@" ++ lab else "@" ++ id).data ++
        replaceMentionsF n ((c :: cs).drop len)
    | none => c :: replaceMentionsF n cs

/-- `ReplaceAllStringFunc` for `channelPattern` (`#label` / `#ID`). -/
def replaceChannelsF : Nat → List Char → List Char
  | _, [] => []
  | 0, l => l
  | n + 1, c :: cs =>
    match matchChannelRef (c :: cs) with
    | some (id, lab, len) =>
      (if lab ≠ "" then "#" ++ lab else "#" ++ id).data ++
        replaceChannelsF n ((c :: cs).drop len)
    | none => c :: replaceChannelsF n cs

/-- `ReplaceAllStringFunc` for `urlPattern` (`label (url)` / `url`). -/
def replaceUrlsF : Nat → List Char → List Char
  | _, [] => []
  | 0, l => l
  | n + 1, c :: cs =>
    match matchSlackUrl (c :: cs) with
    | some (url, lab, len) =>
      (if lab ≠ "" then lab ++ " (" ++ url ++ ")" else url).data ++
        replaceUrlsF n ((c :: cs).drop len)
    | none => c :: replaceUrlsF n cs

/-- `strings.ReplaceAll` (leftmost, non-overlapping), fuelled like the
scanners; the patterns used are all non-empty. -/
def replaceLitF (pat rep : List Char) : Nat → List Char → List Char
  | _, [] => []
  | 0, l => l
  | n + 1, c :: cs =>
    if pat.isPrefixOf (c :: cs) then
      rep ++ replaceLitF pat rep n ((c :: cs).drop pat.length)
    else c :: replaceLitF pat rep n cs

/-- `normalize.normalizeSlackText`: the three markup replacement passes,
then the three HTML-entity unescapes, in source order. -/
def normalizeSlackText (text : String) : String :=
  let l := text.data
  let l := replaceMentionsF l.length l
  let l := replaceChannelsF l.length l
  let l := replaceUrlsF l.length l
  let l := replaceLitF "&lt;".data "<".data l.length l
  let l := replaceLitF "&gt;".data ">".data l.length l
  let l := replaceLitF "&amp;".data "&".data l.length l
  l.asString

/-- `FindAllStringSubmatch` collection of mention ids (`extractMentions`). -/
def collectMentionsF : Nat → List Char → List String
  | _, [] => []
  | 0, _ => []
  | n + 1, c :: cs =>
    match matchUserMention (c :: cs) with
    | some (id, _, len) => id :: collectMentionsF n ((c :: cs).drop len)
    | none => collectMentionsF n cs

/-- `normalize.extractMentions`. -/
def extractMentions (text : String) : List String :=
  collectMentionsF text.data.length text.data

/-- `FindAllStringSubmatch` collection of URLs (`extractURLs`). -/
def collectUrlsF : Nat → List Char → List String
  | _, [] => []
  | 0, _ => []
  | n + 1, c :: cs =>
    match matchSlackUrl (c :: cs) with
    | some (url, _, len) => url :: collectUrlsF n ((c :: cs).drop len)
    | none => collectUrlsF n cs

/-- `normalize.extractURLs`. -/
def extractURLs (text : String) : List String :=
  collectUrlsF text.data.length text.data

/-- `FindAllStringSubmatch` collection of fenced blocks. -/
def collectBlocksF : Nat → List Char → List CodeBlock
  | _, [] => []
  | 0, _ => []
  | n + 1, c :: cs =>
    match matchFencedBlock (c :: cs) with
    | some (lang, code, len) =>
      ⟨lang, code⟩ :: collectBlocksF n ((c :: cs).drop len)
    | none => collectBlocksF n cs

/-- `normalize.extractCodeBlocks`. -/
def extractCodeBlocks (text : String) : List CodeBlock :=
  collectBlocksF text.data.length text.data

/-- Syntactic success of `strconv.ParseFloat` on the decimal forms Slack
timestamps take (optional sign, digits with an optional fraction part, an
optional exponent; the special forms inf/nan/hex never arise as
timestamps).  Models the error check of `parseSlackTimestamp`. -/
def validGoFloat (s : String) : Bool :=
  let l : List Char := match s.data with
    | '+' :: t => t
    | '-' :: t => t
    | t => t
  let si := l.span Char.isDigit
  let sf : List Char × List Char := match si.2 with
    | '.' :: t => t.span Char.isDigit
    | _ => ([], si.2)
  if si.1.isEmpty && sf.1.isEmpty then false
  else
    match sf.2 with
    | [] => true
    | e :: t =>
      if e = 'e' || e = 'E' then
        let t1 : List Char := match t with
          | '+' :: t2 => t2
          | '-' :: t2 => t2
          | t2 => t2
        let se := t1.span Char.isDigit
        !se.1.isEmpty && se.2.isEmpty
      else false

/-- One entry of `SlackMessage.Files` (`[]map[string]interface{}` in Go):
the four keys the conversion reads, `none` when absent. -/
structure SlackFile where
  filetype : Option String
  url_private : Option String
  title : Option String
  mimetype : Option String
  deriving DecidableEq

/-- `normalize.SlackMessage` (`Type` in Go is `mtype` here). -/
structure SlackMessage where
  mtype : String
  User : String
  Text : String
  Timestamp : String
  ThreadTS : String
  BotID : String
  Subtype : String
  Files : List SlackFile
  deriving DecidableEq

/-- `normalize.SlackChannel`. -/
structure SlackChannel where
  ID : String
  Name : String
  IsChannel : Bool
  IsPrivate : Bool
  deriving DecidableEq

/-- The nested `profile` object of `normalize.SlackUser`. -/
structure SlackProfile where
  Email : String
  Image192 : String
  deriving DecidableEq

/-- `normalize.SlackUser`. -/
structure SlackUser where
  ID : String
  Name : String
  RealName : String
  Profile : SlackProfile
  deriving DecidableEq

/-- `normalize.convertSlackUser`. -/
def convertSlackUser (user : Option SlackUser) (teamID : String) : Option User :=
  match user with
  | none => none
  | some u => some
    { ID := "user_slack_" ++ teamID ++ "_" ++ u.ID
      SourceType := "slack"
      SourceID := u.ID
      DisplayName := u.Name
      RealName := u.RealName
      Email := u.Profile.Email
      AvatarURL := u.Profile.Image192
      CanonicalID := ""
      AlternateIDs := [] }

/-- `normalize.convertSlackChannel`. -/
def convertSlackChannel (channel : Option SlackChannel) (teamID : String) :
    Option Channel :=
  match channel with
  | none => none
  | some ch => some
    { ID := "chan_slack_" ++ teamID ++ "_" ++ ch.ID
      SourceType := "slack"
      SourceID := ch.ID
      Name := ch.Name
      DisplayName := "#" ++ ch.Name
      ctype := if !ch.IsChannel then "dm" else "channel"
      IsPrivate := ch.IsPrivate
      ParentSpace := teamID }

/-- `normalize.convertSlackAttachments`. -/
def convertSlackAttachments (files : List SlackFile) : List Attachment :=
  if files.isEmpty then []
  else files.map (fun f =>
    { ctype := f.filetype.getD ""
      URL := f.url_private.getD ""
      Title := f.title.getD ""
      MimeType := f.mimetype.getD "" })

/-- `normalize.SlackToNormalized`.  `none` models the error return when the
native timestamp does not parse; `fetchedAt` and `now` are the explicit
clock arguments (`now` stands for the `time.Now()` call). -/
def slackToNormalized (msg : SlackMessage) (channel : SlackChannel)
    (user : Option SlackUser) (teamID : String) (fetchedAt now : GoTime) :
    Option NormalizedMessage :=
  if !validGoFloat msg.Timestamp then none
  else
    let msgID := "msg_slack_" ++ teamID ++ "_" ++ channel.ID ++ "_" ++ msg.Timestamp
    let isThreadRoot := msg.ThreadTS = "" || msg.ThreadTS = msg.Timestamp
    let threadID :=
      if msg.ThreadTS ≠ "" then
        "thread_slack_" ++ teamID ++ "_" ++ channel.ID ++ "_" ++ msg.ThreadTS
      else ""
    let parentID :=
      if msg.ThreadTS ≠ "" && !isThreadRoot then
        "msg_slack_" ++ teamID ++ "_" ++ channel.ID ++ "_" ++ msg.ThreadTS
      else ""
    some
      { ID := msgID
        SourceType := "slack"
        SourceID := teamID ++ ":" ++ channel.ID ++ ":" ++ msg.Timestamp
        Timestamp := msg.Timestamp
        Author := convertSlackUser user teamID
        Content := normalizeSlackText msg.Text
        ContentHTML := ""
        Channel := convertSlackChannel (some channel) teamID
        ThreadID := threadID
        ParentID := parentID
        IsThreadRoot := isThreadRoot
        Attachments := convertSlackAttachments msg.Files
        Mentions := extractMentions msg.Text
        URLs := extractURLs msg.Text
        CodeBlocks := extractCodeBlocks msg.Text
        SourceMetadata :=
          [("team_id", .str teamID), ("channel_id", .str channel.ID),
           ("ts", .str msg.Timestamp), ("thread_ts", .str msg.ThreadTS),
           ("type", .str msg.mtype), ("subtype", .str msg.Subtype),
           ("bot_id", .str msg.BotID)]
        FetchedAt := fetchedAt
        NormalizedAt := now
        SchemaVersion := SchemaVersion }

/-! ## GitHub normalizer (internal/normalize, GitHub conversions) -/

/-- `github.User`. -/
structure GhUser where
  ID : Int
  Login : String
  Name : String
  Email : String
  AvatarURL : String
  deriving DecidableEq

/-- `github.Issue`. -/
structure Issue where
  Number : Int
  Title : String
  Body : String
  State : String
  User : GhUser
  CreatedAt : GoTime
  UpdatedAt : GoTime
  ClosedAt : Option GoTime
  Comments : Int
  deriving DecidableEq

/-- `github.Comment`. -/
structure Comment where
  ID : Int
  Body : String
  User : GhUser
  CreatedAt : GoTime
  UpdatedAt : GoTime
  deriving DecidableEq

/-- `fmt.Sprintf("%d", n)` / `strconv.FormatInt(n, 10)`. -/
def goItoa (n : Int) : String :=
  toString n

/-- The class `[a-zA-Z0-9]`. -/
def isAlnum (c : Char) : Bool :=
  ('a' ≤ c && c ≤ 'z') || ('A' ≤ c && c ≤ 'Z') || ('0' ≤ c && c ≤ '9')

/-- The boundary class `[^a-zA-Z0-9.]` of `githubMentionPattern` is the
complement of this. -/
def isAlnumDot (c : Char) : Bool :=
  isAlnum c || c = '.'

/-- The continuation class `[-a-zA-Z0-9]` of a GitHub login. -/
def isGhNameChar (c : Char) : Bool :=
  c = '-' || isAlnum c

/-- The `@([a-zA-Z0-9][-a-zA-Z0-9]*)` tail of `githubMentionPattern`:
returns the captured login and the length consumed from `@` on. -/
def matchGhLogin : List Char → Option (String × Nat)
  | '@' :: c :: t =>
    if isAlnum c then
      let sp := t.span isGhNameChar
      some ((c :: sp.1).asString, sp.1.length + 2)
    else none
  | _ => none

/-- Scan for `githubMentionPattern` matches after the first position: a
match consumes its boundary character (any character outside
`[a-zA-Z0-9.]`) together with the login. -/
def ghMentionScanF : Nat → List Char → List String
  | _, [] => []
  | 0, _ => []
  | n + 1, c :: cs =>
    if isAlnumDot c then ghMentionScanF n cs
    else
      match matchGhLogin cs with
      | some (nm, len) => nm :: ghMentionScanF n (cs.drop len)
      | none => ghMentionScanF n cs

/-- `normalize.extractGitHubMentions` (the `(?:^|...)` alternative lets a
mention start at position 0 without a boundary character). -/
def extractGitHubMentions (text : String) : List String :=
  match matchGhLogin text.data with
  | some (nm, len) =>
    nm :: ghMentionScanF (text.data.drop len).length (text.data.drop len)
  | none => ghMentionScanF text.data.length text.data

/-- The `\s` class of RE2 (`[\t\n\f\r ]`). -/
def isReSpace (c : Char) : Bool :=
  c = '\t' || c = '\n' || c = '\x0c' || c = '\r' || c = ' '

/-- Matcher of `githubURLPattern`, regex `https?://[^\s\)]+`. -/
def matchGhUrl (l : List Char) : Option (String × Nat) :=
  let scheme? : Option (String × List Char) :=
    if "https://".data.isPrefixOf l then some ("https://", l.drop 8)
    else if "http://".data.isPrefixOf l then some ("http://", l.drop 7)
    else none
  match scheme? with
  | none => none
  | some (scheme, r1) =>
    let sb := r1.span (fun c => !isReSpace c && c ≠ ')')
    if sb.1.isEmpty then none
    else some (scheme ++ sb.1.asString, scheme.length + sb.1.length)

/-- `FindAllString` scan for `githubURLPattern`. -/
def ghUrlScanF : Nat → List Char → List String
  | _, [] => []
  | 0, _ => []
  | n + 1, c :: cs =>
    match matchGhUrl (c :: cs) with
    | some (url, len) => url :: ghUrlScanF n ((c :: cs).drop len)
    | none => ghUrlScanF n cs

/-- `normalize.extractGitHubURLs`. -/
def extractGitHubURLs (text : String) : List String :=
  ghUrlScanF text.data.length text.data

/-- `normalize.extractGitHubCodeBlocks` (`githubCodeBlockPattern` is the
same pattern as the Slack one). -/
def extractGitHubCodeBlocks (text : String) : List CodeBlock :=
  collectBlocksF text.data.length text.data

/-- Matcher of `githubInlineCodePattern`, regex `` `([^`]+)` ``. -/
def matchInlineCode : List Char → Option (String × Nat)
  | '`' :: r =>
    let sc := r.span (fun c => c ≠ '`')
    if sc.1.isEmpty then none
    else
      match sc.2 with
      | '`' :: _ => some (sc.1.asString, sc.1.length + 2)
      | _ => none
  | _ => none

/-- `ReplaceAllString(.., "$1")` for `githubInlineCodePattern`. -/
def ghInlineScanF : Nat → List Char → List Char
  | _, [] => []
  | 0, l => l
  | n + 1, c :: cs =>
    match matchInlineCode (c :: cs) with
    | some (code, len) => code.data ++ ghInlineScanF n ((c :: cs).drop len)
    | none => c :: ghInlineScanF n cs

/-- `normalize.normalizeGitHubMarkdown`. -/
def normalizeGitHubMarkdown (text : String) : String :=
  let l := text.data
  let l := ghInlineScanF l.length l
  let l := replaceLitF "**".data [] l.length l
  let l := replaceLitF "__".data [] l.length l
  let l := replaceLitF "*".data [] l.length l
  let l := replaceLitF "_".data [] l.length l
  l.asString

/-- `normalize.convertGitHubUser`. -/
def convertGitHubUser (user : Option GhUser) (_owner _repo : String) : Option User :=
  match user with
  | none => none
  | some u => some
    { ID := "user_github_" ++ u.Login
      SourceType := "github"
      SourceID := goItoa u.ID
      DisplayName := u.Login
      RealName := u.Name
      Email := u.Email
      AvatarURL := u.AvatarURL
      CanonicalID := ""
      AlternateIDs := [] }

/-- `normalize.convertGitHubIssueToChannel`. -/
def convertGitHubIssueToChannel (issue : Option Issue) (repo owner : String) :
    Option Channel :=
  match issue with
  | none => none
  | some is => some
    { ID := "chan_github_" ++ owner ++ "_" ++ repo ++ "_issue_" ++ goItoa is.Number
      SourceType := "github"
      SourceID := owner ++ "/" ++ repo ++ "/issues/" ++ goItoa is.Number
      Name := "#" ++ goItoa is.Number
      DisplayName := owner ++ "/" ++ repo ++ "#" ++ goItoa is.Number ++ ": " ++ is.Title
      ctype := "issue"
      IsPrivate := false
      ParentSpace := owner ++ "/" ++ repo }

/-- `normalize.GitHubIssueToNormalized` (total: the Go function never
returns a non-nil error). -/
def githubIssueToNormalized (issue : Issue) (repo owner : String)
    (fetchedAt now : GoTime) : NormalizedMessage :=
  let msgID := "msg_github_" ++ owner ++ "_" ++ repo ++ "_issue_" ++ goItoa issue.Number
  let threadID := "thread_github_" ++ owner ++ "_" ++ repo ++ "_issue_" ++ goItoa issue.Number
  { ID := msgID
    SourceType := "github"
    SourceID := owner ++ "/" ++ repo ++ "/issues/" ++ goItoa issue.Number
    Timestamp := issue.CreatedAt
    Author := convertGitHubUser (some issue.User) owner repo
    Content := normalizeGitHubMarkdown issue.Body
    ContentHTML := ""
    Channel := convertGitHubIssueToChannel (some issue) repo owner
    ThreadID := threadID
    ParentID := ""
    IsThreadRoot := true
    Attachments := []
    Mentions := extractGitHubMentions issue.Body
    URLs := extractGitHubURLs issue.Body
    CodeBlocks := extractGitHubCodeBlocks issue.Body
    SourceMetadata :=
      [("owner", .str owner), ("repo", .str repo),
       ("issue_number", .int issue.Number), ("title", .str issue.Title),
       ("state", .str issue.State), ("closed_at", .optTime issue.ClosedAt)]
    FetchedAt := fetchedAt
    NormalizedAt := now
    SchemaVersion := SchemaVersion }

/-- `normalize.GitHubIssueCommentToNormalized` (total like the issue
conversion). -/
def githubIssueCommentToNormalized (comment : Comment) (issue : Issue)
    (repo owner : String) (fetchedAt now : GoTime) : NormalizedMessage :=
  let msgID := "msg_github_" ++ owner ++ "_" ++ repo ++ "_issue_" ++
    goItoa issue.Number ++ "_comment_" ++ goItoa comment.ID
  let threadID := "thread_github_" ++ owner ++ "_" ++ repo ++ "_issue_" ++ goItoa issue.Number
  let parentID := "msg_github_" ++ owner ++ "_" ++ repo ++ "_issue_" ++ goItoa issue.Number
  { ID := msgID
    SourceType := "github"
    SourceID := owner ++ "/" ++ repo ++ "/issues/" ++ goItoa issue.Number ++
      "#issuecomment-" ++ goItoa comment.ID
    Timestamp := comment.CreatedAt
    Author := convertGitHubUser (some comment.User) owner repo
    Content := normalizeGitHubMarkdown comment.Body
    ContentHTML := ""
    Channel := convertGitHubIssueToChannel (some issue) repo owner
    ThreadID := threadID
    ParentID := parentID
    IsThreadRoot := false
    Attachments := []
    Mentions := extractGitHubMentions comment.Body
    URLs := extractGitHubURLs comment.Body
    CodeBlocks := extractGitHubCodeBlocks comment.Body
    SourceMetadata :=
      [("owner", .str owner), ("repo", .str repo),
       ("issue_number", .int issue.Number), ("comment_id", .int comment.ID),
       ("updated_at", .time comment.UpdatedAt)]
    FetchedAt := fetchedAt
    NormalizedAt := now
    SchemaVersion := SchemaVersion }

/-! ## Rate limiter (internal/db/ratelimit.go)

The SQL row for a key is modelled directly: the store maps a key
`(source_type, workspace_id, endpoint)` to its `RateLimit` row, and each
operation is the logical effect of its SQL statement.  Time is an integer
count of seconds (the one unit the arithmetic uses: `window_start +
window_duration_seconds` compared against `now` with Go's strict
`time.Time.After`). -/

/-- The `(source_type, workspace_id, endpoint)` key of `rate_limits`. -/
abbrev RLKey := String × Option String × String

/-- `db.RateLimit`: one row of `rate_limits`. -/
structure RateLimit where
  RequestsMade : Int
  WindowStart : Int
  WindowDurationSeconds : Int
  MaxRequests : Int
  SafetyLimit : Int
  deriving DecidableEq

/-- The persisted rate-limit table. -/
def RLStore : Type := RLKey → Option RateLimit

/-- `(*DB).InitRateLimit`: `INSERT .. ON CONFLICT DO NOTHING` with
`requests_made = 0` and `window_start = now`. -/
def initRateLimit (now : Int) (st : RLStore) (k : RLKey)
    (windowDuration maxRequests safetyLimit : Int) : RLStore :=
  fun k' =>
    if k' = k then
      match st k with
      | some row => some row
      | none => some ⟨0, now, windowDuration, maxRequests, safetyLimit⟩
    else st k'

/-- `(*DB).ResetRateLimitWindow`: `UPDATE .. SET requests_made = 0,
window_start = now` for the key's row (no effect when absent). -/
def resetRateLimitWindow (now : Int) (st : RLStore) (k : RLKey) : RLStore :=
  fun k' =>
    if k' = k then
      match st k with
      | some row => some { row with RequestsMade := 0, WindowStart := now }
      | none => none
    else st k'

/-- `(*DB).RecordRequest`: `UPDATE .. SET requests_made = requests_made + 1`
(no effect when the row is absent). -/
def recordRequest (st : RLStore) (k : RLKey) : RLStore :=
  fun k' =>
    if k' = k then
      match st k with
      | some row => some { row with RequestsMade := row.RequestsMade + 1 }
      | none => none
    else st k'

/-- `(*DB).CheckRateLimit`: the allow/deny decision together with the store
it leaves behind (initialized on a missing row, reset on an expired
window).  `now.After(windowEnd)` is Go's strict comparison. -/
def checkRateLimit (now : Int) (st : RLStore) (k : RLKey) : Bool × RLStore :=
  match st k with
  | none => (true, initRateLimit now st k 60 20 10)
  | some row =>
    if now > row.WindowStart + row.WindowDurationSeconds then
      (true, resetRateLimitWindow now st k)
    else if row.RequestsMade ≥ row.SafetyLimit then (false, st)
    else (true, st)

/-- The documented `Check`-then-`Record` usage (§4.1 of the design: callers
check before the guarded action, record after it succeeds): `n` rounds at
time `now`, returning whether every check allowed, and the final store. -/
def checkRecordRounds (now : Int) (k : RLKey) : Nat → RLStore → Bool × RLStore
  | 0, st => (true, st)
  | n + 1, st =>
    let r1 := checkRateLimit now st k
    let st2 := if r1.1 then recordRequest r1.2 k else r1.2
    let r2 := checkRecordRounds now k n st2
    (r1.1 && r2.1, r2.2)

/-! ## Concrete fixtures used by the claims -/

/-- A message carrying only content (the classifier detectors read only
`Content`, `URLs` and `CodeBlocks`). -/
def plainMsg (content : String) : NormalizedMessage :=
  { ID := "", SourceType := "", SourceID := "", Timestamp := "", Author := none
    Content := content, ContentHTML := "", Channel := none, ThreadID := ""
    ParentID := "", IsThreadRoot := false, Attachments := [], Mentions := []
    URLs := [], CodeBlocks := [], SourceMetadata := [], FetchedAt := ""
    NormalizedAt := "", SchemaVersion := "" }

/-! ## C1 — acknowledgment boundary safety -/

/-- C1 (code bug): the thanks-phrase matching of `classifyAcknowledgment`
is plain `strings.Contains`, not boundary-safe: for
`"The city streets were gritty after the storm."` the token `"ty"` fires
inside `"city"`/`"gritty"`, so the classifier *does* produce an
acknowledgment classification (confidence 0.3, signal `thanks:ty`), in
violation of the boundary-safety requirement; `"ty so much!"` produces the
same classification (this half of the claim holds). -/
theorem c1_ack_boundary_code_bug :
    classifyAcknowledgment (plainMsg "The city streets were gritty after the storm.") =
      some ⟨"acknowledgment", 0.3, ["thanks:ty"]⟩ ∧
    (classifyMessage (plainMsg "The city streets were gritty after the storm.") none).any
      (fun c => c.ctype = "acknowledgment") = true ∧
    classifyAcknowledgment (plainMsg "ty so much!") =
      some ⟨"acknowledgment", 0.3, ["thanks:ty"]⟩ := by
  refine ⟨by decide, by decide, by decide⟩

/-! ## C8 — acknowledgment positive case -/

/-- C8 (confirmed): `"Thanks! That worked perfectly."` yields an
acknowledgment classification with confidence 0.7 ≥ 0.6 whose signals
contain the thanks-signal `thanks:thank` and the success-signal
`success:worked`. -/
theorem c8_ack_positive :
    ∃ c ∈ classifyMessage (plainMsg "Thanks! That worked perfectly.") none,
      c.ctype = "acknowledgment" ∧ (0.6 : ℚ) ≤ c.Confidence ∧
      "thanks:thank" ∈ c.Signals ∧ "success:worked" ∈ c.Signals := by
  refine ⟨⟨"acknowledgment", 0.7, ["thanks:thank", "success:worked"]⟩,
    by decide, rfl, by decide, by decide, by decide⟩

/-! ## C6 — NormalizeMarkup idempotence -/

/-- C6 (counterexample): HTML-entity unescaping cascades, so
`normalizeSlackText` is not idempotent: `"&amp;lt;"` normalizes to
`"&lt;"`, which a second application turns into `"<"`. -/
theorem c6_idempotence_counterexample :
    normalizeSlackText "&amp;lt;" = "&lt;" ∧
    normalizeSlackText (normalizeSlackText "&amp;lt;") = "<" ∧
    normalizeSlackText (normalizeSlackText "&amp;lt;") ≠
      normalizeSlackText "&amp;lt;" := by
  refine ⟨by decide, by decide, by decide⟩

lemma matchUserMention_not_lt {c : Char} {cs : List Char} (h : c ≠ '<') :
    matchUserMention (c :: cs) = none := by
  unfold matchUserMention
  split
  · rename_i heq
    injection heq with h1 _
    exact absurd h1 h
  · rfl

lemma matchChannelRef_not_lt {c : Char} {cs : List Char} (h : c ≠ '<') :
    matchChannelRef (c :: cs) = none := by
  unfold matchChannelRef
  split
  · rename_i heq
    injection heq with h1 _
    exact absurd h1 h
  · rfl

lemma matchSlackUrl_not_lt {c : Char} {cs : List Char} (h : c ≠ '<') :
    matchSlackUrl (c :: cs) = none := by
  unfold matchSlackUrl
  split
  · rename_i heq
    injection heq with h1 _
    exact absurd h1 h
  · rfl

lemma replaceMentionsF_of_not_lt : ∀ (fuel : Nat) (l : List Char),
    '<' ∉ l → replaceMentionsF fuel l = l := by
  intro fuel
  induction fuel with
  | zero => intro l _; cases l <;> rfl
  | succ n ih =>
    intro l hl
    cases l with
    | nil => rfl
    | cons c cs =>
      have hc : c ≠ '<' := fun e => hl (e ▸ List.mem_cons_self c cs)
      have hcs : '<' ∉ cs := fun e => hl (List.mem_cons_of_mem c e)
      simp only [replaceMentionsF, matchUserMention_not_lt hc]
      rw [ih cs hcs]

lemma replaceChannelsF_of_not_lt : ∀ (fuel : Nat) (l : List Char),
    '<' ∉ l → replaceChannelsF fuel l = l := by
  intro fuel
  induction fuel with
  | zero => intro l _; cases l <;> rfl
  | succ n ih =>
    intro l hl
    cases l with
    | nil => rfl
    | cons c cs =>
      have hc : c ≠ '<' := fun e => hl (e ▸ List.mem_cons_self c cs)
      have hcs : '<' ∉ cs := fun e => hl (List.mem_cons_of_mem c e)
      simp only [replaceChannelsF, matchChannelRef_not_lt hc]
      rw [ih cs hcs]

lemma replaceUrlsF_of_not_lt : ∀ (fuel : Nat) (l : List Char),
    '<' ∉ l → replaceUrlsF fuel l = l := by
  intro fuel
  induction fuel with
  | zero => intro l _; cases l <;> rfl
  | succ n ih =>
    intro l hl
    cases l with
    | nil => rfl
    | cons c cs =>
      have hc : c ≠ '<' := fun e => hl (e ▸ List.mem_cons_self c cs)
      have hcs : '<' ∉ cs := fun e => hl (List.mem_cons_of_mem c e)
      simp only [replaceUrlsF, matchSlackUrl_not_lt hc]
      rw [ih cs hcs]

lemma replaceLitF_of_not_head {hd : Char} {pt : List Char} (rep : List Char) :
    ∀ (fuel : Nat) (l : List Char), hd ∉ l →
    replaceLitF (hd :: pt) rep fuel l = l := by
  intro fuel
  induction fuel with
  | zero => intro l _; cases l <;> rfl
  | succ n ih =>
    intro l hl
    cases l with
    | nil => rfl
    | cons c cs =>
      have hc : c ≠ hd := fun e => hl (e ▸ List.mem_cons_self c cs)
      have hcs : hd ∉ cs := fun e => hl (List.mem_cons_of_mem c e)
      have hpre : (hd :: pt).isPrefixOf (c :: cs) = false := by
        simp [List.isPrefixOf, Ne.symm hc]
      simp only [replaceLitF, hpre]
      rw [ih cs hcs]
      simp

/-- A text containing neither `<` nor `&` is a fixed point of
`normalizeSlackText`: every markup pattern needs a `<` and every entity
a `&`. -/
lemma normalizeSlackText_fixed (t : String) (h1 : '<' ∉ t.data)
    (h2 : '&' ∉ t.data) : normalizeSlackText t = t := by
  simp only [normalizeSlackText]
  rw [replaceMentionsF_of_not_lt _ _ h1, replaceChannelsF_of_not_lt _ _ h1,
    replaceUrlsF_of_not_lt _ _ h1,
    replaceLitF_of_not_head _ _ _ h2, replaceLitF_of_not_head _ _ _ h2,
    replaceLitF_of_not_head _ _ _ h2]
  rfl

/-- C6 (amended): `normalizeSlackText` is not idempotent in general (see
the counterexample); it is idempotent on every input whose normalized
output contains neither `<` nor `&`, since each replacement pass needs one
of those characters to fire.  (This condition is sufficient, not
necessary: an output such as `"a < b"` contains `<` yet is still a fixed
point.) -/
theorem c6_idempotent_amended (s : String)
    (h1 : '<' ∉ (normalizeSlackText s).data)
    (h2 : '&' ∉ (normalizeSlackText s).data) :
    normalizeSlackText (normalizeSlackText s) = normalizeSlackText s :=
  normalizeSlackText_fixed _ h1 h2

/-- Witness for the amended C6 at a concrete input. -/
theorem c6_idempotent_amended_witness :
    normalizeSlackText (normalizeSlackText "hello <@U1|bob>, bye") =
      normalizeSlackText "hello <@U1|bob>, bye" ∧
    normalizeSlackText "hello <@U1|bob>, bye" = "hello @bob, bye" := by
  constructor
  · exact c6_idempotent_amended "hello <@U1|bob>, bye" (by decide) (by decide)
  · decide

/-! ## C2 — GetThread on a parent_id cycle -/

/-- A malformed message whose parent is `cycMsgB` while being that
message's parent in turn. -/
def cycMsgA : NormalizedMessage :=
  { plainMsg "a-body" with ID := "a", ParentID := "b", ThreadID := "t" }

/-- The other half of the `parent_id` 2-cycle. -/
def cycMsgB : NormalizedMessage :=
  { plainMsg "b-body" with ID := "b", ParentID := "a", ThreadID := "t" }

/-- The reply graph built from the 2-cycle: `Adjacency = {b ↦ [a], a ↦ [b]}`. -/
def cycleGraph : ReplyGraph :=
  buildFromNormalizedMessages "t0" [cycMsgA, cycMsgB]

lemma cycleGraph_collect_none : ∀ fuel : Nat,
    (∀ acc, collectTM cycleGraph fuel ["a"] acc = none) ∧
    (∀ acc, collectTM cycleGraph fuel ["b"] acc = none) := by
  intro fuel
  induction fuel with
  | zero => exact ⟨fun _ => rfl, fun _ => rfl⟩
  | succ n ih =>
    constructor
    · intro acc
      have h := (ih.2) (acc ++ [mkNode cycMsgA])
      show (match collectTM cycleGraph n ["b"] (acc ++ [mkNode cycMsgA]) with
            | none => none
            | some acc2 => collectTM cycleGraph n [] acc2) = none
      rw [h]
    · intro acc
      have h := (ih.1) (acc ++ [mkNode cycMsgB])
      show (match collectTM cycleGraph n ["a"] (acc ++ [mkNode cycMsgB]) with
            | none => none
            | some acc2 => collectTM cycleGraph n [] acc2) = none
      rw [h]

/-- C2 (code bug): `GetThread` tracks no visited set, so on the malformed
`parent_id` 2-cycle the recursion of `collectThreadMessages` never
completes: no step bound whatsoever suffices, i.e. the Go recursion
diverges instead of returning a finite sequence. -/
theorem c2_getThread_cycle_diverges :
    ∀ fuel : Nat, getThreadF cycleGraph fuel "a" = none := by
  intro fuel
  show collectTM cycleGraph fuel ["b"] [mkNode cycMsgA] = none
  exact (cycleGraph_collect_none fuel).2 [mkNode cycMsgA]

/-! ## C7 — end-to-end threading scenario -/

/-- Record A: a chat message with no thread pointer (thread root). -/
def recA : SlackMessage :=
  ⟨"message", "U1", "hello there", "1700000000.000100", "", "", "", []⟩

/-- Record B: a reply whose thread pointer equals A's native timestamp. -/
def recB : SlackMessage :=
  ⟨"message", "U2", "a reply", "1700000000.000200", "1700000000.000100", "", "", []⟩

/-- The channel `C1` of the scenario. -/
def chanC1 : SlackChannel := ⟨"C1", "general", true, false⟩

/-- A normalized (the extraction is total on these fixtures). -/
def msgA7 : NormalizedMessage :=
  (slackToNormalized recA chanC1 none "T1" "fetched" "now").getD (plainMsg "")

/-- B normalized. -/
def msgB7 : NormalizedMessage :=
  (slackToNormalized recB chanC1 none "T1" "fetched" "now").getD (plainMsg "")

/-- C7 (confirmed): normalizing A and B and building the reply graph gives
exactly one thread root (A), `reply_messages = 2 - 1 = 1`,
`GetThreadDepth(A.id) = 1`, and B's `parent_id` equal to A's id. -/
theorem c7_end_to_end (a b : NormalizedMessage)
    (ha : slackToNormalized recA chanC1 none "T1" "fetched" "now" = some a)
    (hb : slackToNormalized recB chanC1 none "T1" "fetched" "now" = some b) :
    (buildFromNormalizedMessages "g0" [a, b]).ThreadRoots = [a.ID] ∧
    (statsF (buildFromNormalizedMessages "g0" [a, b]) 10).map
      (fun s => s.thread_count) = some 1 ∧
    (statsF (buildFromNormalizedMessages "g0" [a, b]) 10).map
      (fun s => s.reply_messages) = some 1 ∧
    getThreadDepthF (buildFromNormalizedMessages "g0" [a, b]) 10 a.ID = some 1 ∧
    b.ParentID = a.ID := by
  have ea : slackToNormalized recA chanC1 none "T1" "fetched" "now" = some msgA7 := rfl
  have eb : slackToNormalized recB chanC1 none "T1" "fetched" "now" = some msgB7 := rfl
  have ha2 : a = msgA7 := Option.some.inj (ha.symm.trans ea)
  have hb2 : b = msgB7 := Option.some.inj (hb.symm.trans eb)
  subst ha2 hb2
  refine ⟨by decide, by decide, by decide, by decide, by decide⟩

/-- Witness for C7 at the concrete fixtures. -/
theorem c7_end_to_end_witness :
    (buildFromNormalizedMessages "g0" [msgA7, msgB7]).ThreadRoots = [msgA7.ID] ∧
    (statsF (buildFromNormalizedMessages "g0" [msgA7, msgB7]) 10).map
      (fun s => s.thread_count) = some 1 ∧
    (statsF (buildFromNormalizedMessages "g0" [msgA7, msgB7]) 10).map
      (fun s => s.reply_messages) = some 1 ∧
    getThreadDepthF (buildFromNormalizedMessages "g0" [msgA7, msgB7]) 10 msgA7.ID = some 1 ∧
    msgB7.ParentID = msgA7.ID :=
  c7_end_to_end msgA7 msgB7 rfl rfl

/-! ## C5 — rate limiter window -/

/-- The key used in the scenario. -/
def rlKey : RLKey := ("slack", some "T1", "search.messages")

/-- The empty rate-limit table. -/
def emptyRL : RLStore := fun _ => none

lemma checkRecordRounds_ok (now : Int) (k : RLKey) :
    ∀ (n : Nat) (st : RLStore) (r w0 : Int),
      st k = some ⟨r, w0, 60, 20, 10⟩ → ¬ now > w0 + 60 → r + n ≤ 10 →
      (checkRecordRounds now k n st).1 = true ∧
      (checkRecordRounds now k n st).2 k = some ⟨r + n, w0, 60, 20, 10⟩ := by
  intro n
  induction n with
  | zero =>
    intro st r w0 h _ _
    simpa [checkRecordRounds] using h
  | succ m ih =>
    intro st r w0 h hw hn
    have hlt : ¬ r ≥ 10 := by omega
    have hch : checkRateLimit now st k = (true, st) := by
      simp [checkRateLimit, h, hw, hlt]
    have hst2 : (recordRequest st k) k = some ⟨r + 1, w0, 60, 20, 10⟩ := by
      simp [recordRequest, h]
    have hrest := ih (recordRequest st k) (r + 1) w0 hst2 hw (by omega)
    have harith : r + 1 + (m : Int) = r + (m + 1 : Nat) := by push_cast; ring
    constructor
    · simp [checkRecordRounds, hch, hrest.1]
    · simp only [checkRecordRounds, hch, if_true]
      simpa [harith] using hrest.2

/-- C5 (confirmed): after `Init(window=60s, max=20, safety=10)` at time
`t0`, ten check-and-record rounds at any time `t` within the window all
allow; the eleventh check at `t` denies; a later check at `t2` past the
window end allows again and leaves `requests_made = 0` (the reset). -/
theorem c5_rate_limiter_window (t0 t t2 : Int)
    (hin : ¬ t > t0 + 60) (hout : t2 > t0 + 60) :
    (checkRecordRounds t rlKey 10 (initRateLimit t0 emptyRL rlKey 60 20 10)).1 = true ∧
    (checkRateLimit t
      (checkRecordRounds t rlKey 10 (initRateLimit t0 emptyRL rlKey 60 20 10)).2
      rlKey).1 = false ∧
    (checkRateLimit t2
      (checkRecordRounds t rlKey 10 (initRateLimit t0 emptyRL rlKey 60 20 10)).2
      rlKey).1 = true ∧
    ((checkRateLimit t2
      (checkRecordRounds t rlKey 10 (initRateLimit t0 emptyRL rlKey 60 20 10)).2
      rlKey).2 rlKey).map (fun row => row.RequestsMade) = some 0 := by
  have h0 : (initRateLimit t0 emptyRL rlKey 60 20 10) rlKey =
      some ⟨0, t0, 60, 20, 10⟩ := by
    simp [initRateLimit, emptyRL]
  obtain ⟨hb, hst⟩ :=
    checkRecordRounds_ok t rlKey 10 (initRateLimit t0 emptyRL rlKey 60 20 10)
      0 t0 h0 hin (by omega)
  rw [show ((0 : Int) + (10 : Nat)) = 10 from by norm_num] at hst
  refine ⟨hb, ?_, ?_, ?_⟩
  · simp [checkRateLimit, hst, hin]
  · simp [checkRateLimit, hst, hout]
  · simp [checkRateLimit, hst, hout, resetRateLimitWindow]

/-- Witness for C5 at `t0 = 0`, in-window time `t = 30`, post-window
time `t2 = 61`. -/
theorem c5_rate_limiter_window_witness :
    (checkRecordRounds 30 rlKey 10 (initRateLimit 0 emptyRL rlKey 60 20 10)).1 = true ∧
    (checkRateLimit 30
      (checkRecordRounds 30 rlKey 10 (initRateLimit 0 emptyRL rlKey 60 20 10)).2
      rlKey).1 = false ∧
    (checkRateLimit 61
      (checkRecordRounds 30 rlKey 10 (initRateLimit 0 emptyRL rlKey 60 20 10)).2
      rlKey).1 = true ∧
    ((checkRateLimit 61
      (checkRecordRounds 30 rlKey 10 (initRateLimit 0 emptyRL rlKey 60 20 10)).2
      rlKey).2 rlKey).map (fun row => row.RequestsMade) = some 0 :=
  c5_rate_limiter_window 0 30 61 (by omega) (by omega)

/-! ## C3 — thread-id / parent-id invariants of the normalizers -/

lemma data_head_append (s t : String) (c : Char) (cs : List Char)
    (h : s.data = c :: cs) : (s ++ t).data = c :: (cs ++ t.data) := by
  rw [String.data_append, h]
  rfl

lemma data_head_append5 (a x1 x2 x3 x4 x5 : String) (c : Char) (cs : List Char)
    (h : a.data = c :: cs) :
    ∃ ds, (a ++ x1 ++ x2 ++ x3 ++ x4 ++ x5).data = c :: ds :=
  ⟨_, data_head_append _ x5 c _ (data_head_append _ x4 c _
    (data_head_append _ x3 c _ (data_head_append _ x2 c _
      (data_head_append _ x1 c cs h))))⟩

lemma ne_of_data_heads {s t : String} {c d : Char}
    (hc : ∃ cs, s.data = c :: cs) (hd : ∃ ds, t.data = d :: ds) (h : c ≠ d) :
    s ≠ t := by
  obtain ⟨cs, hs⟩ := hc
  obtain ⟨ds, ht⟩ := hd
  intro he
  rw [he] at hs
  rw [ht] at hs
  injection hs with h1 _
  exact h h1.symm

lemma ne_empty_of_data_head {s : String} {c : Char} (hc : ∃ cs, s.data = c :: cs) :
    s ≠ "" := by
  obtain ⟨cs, hs⟩ := hc
  intro he
  rw [he] at hs
  exact absurd hs (by simp [show ("" : String).data = [] from rfl])

/-- A chat record that is a thread root via a pointer equal to its own
timestamp. -/
def recRootPtr : SlackMessage :=
  ⟨"message", "U1", "the root", "1700000000.000100", "1700000000.000100", "", "", []⟩

/-- The normalization of `recRootPtr`. -/
def msgRootPtr : NormalizedMessage :=
  (slackToNormalized recRootPtr chanC1 none "T1" "fetched" "now").getD (plainMsg "")

/-- C3 (counterexample): a thread-root message produced by the chat
normalizer has `id` prefixed `msg_slack_` but `thread_id` prefixed
`thread_slack_`, so its own id does NOT equal its thread's `thread_id`,
refuting the claimed invariant. -/
theorem c3_counterexample :
    slackToNormalized recRootPtr chanC1 none "T1" "fetched" "now" = some msgRootPtr ∧
    msgRootPtr.IsThreadRoot = true ∧
    msgRootPtr.ID = "msg_slack_T1_C1_1700000000.000100" ∧
    msgRootPtr.ThreadID = "thread_slack_T1_C1_1700000000.000100" ∧
    msgRootPtr.ID ≠ msgRootPtr.ThreadID := by
  refine ⟨rfl, by decide, by decide, by decide, by decide⟩

/-- C3 (amended): for every message either normalizer produces: a root's
`parent_id` is empty and its `thread_id` is the `thread_`-prefixed
synthesis of its native pointer (empty for a chat root with no pointer) —
never its own `msg_`-prefixed id; every non-root's `parent_id` equals the
root message's synthesized id (same native pointer, `msg_` prefix) while
its `thread_id` is the `thread_`-prefixed synthesis of that pointer,
distinct from the `parent_id`. -/
theorem c3_thread_ids_amended :
    (∀ (msg : SlackMessage) (ch : SlackChannel) (user : Option SlackUser)
       (teamID : String) (fAt nAt : GoTime) (m : NormalizedMessage),
      slackToNormalized msg ch user teamID fAt nAt = some m →
      (m.IsThreadRoot = (msg.ThreadTS = "" || msg.ThreadTS = msg.Timestamp)) ∧
      (m.IsThreadRoot = true →
        m.ParentID = "" ∧
        m.ThreadID = (if msg.ThreadTS = "" then ""
          else "thread_slack_" ++ teamID ++ "_" ++ ch.ID ++ "_" ++ msg.ThreadTS) ∧
        m.ID ≠ m.ThreadID) ∧
      (m.IsThreadRoot = false →
        m.ParentID = "msg_slack_" ++ teamID ++ "_" ++ ch.ID ++ "_" ++ msg.ThreadTS ∧
        m.ThreadID = "thread_slack_" ++ teamID ++ "_" ++ ch.ID ++ "_" ++ msg.ThreadTS ∧
        m.ThreadID ≠ m.ParentID ∧
        (∀ (rmsg : SlackMessage) (ch2 : SlackChannel) (u2 : Option SlackUser)
           (f2 n2 : GoTime) (r : NormalizedMessage),
          slackToNormalized rmsg ch2 u2 teamID f2 n2 = some r →
          rmsg.Timestamp = msg.ThreadTS → ch2.ID = ch.ID →
          r.ID = m.ParentID))) ∧
    (∀ (issue : Issue) (repo owner : String) (fAt nAt : GoTime),
      (githubIssueToNormalized issue repo owner fAt nAt).IsThreadRoot = true ∧
      (githubIssueToNormalized issue repo owner fAt nAt).ParentID = "" ∧
      (githubIssueToNormalized issue repo owner fAt nAt).ID ≠
        (githubIssueToNormalized issue repo owner fAt nAt).ThreadID ∧
      (∀ (comment : Comment) (f2 n2 : GoTime),
        (githubIssueCommentToNormalized comment issue repo owner f2 n2).IsThreadRoot
          = false ∧
        (githubIssueCommentToNormalized comment issue repo owner f2 n2).ParentID =
          (githubIssueToNormalized issue repo owner fAt nAt).ID ∧
        (githubIssueCommentToNormalized comment issue repo owner f2 n2).ThreadID =
          (githubIssueToNormalized issue repo owner fAt nAt).ThreadID ∧
        (githubIssueCommentToNormalized comment issue repo owner f2 n2).ThreadID ≠
          (githubIssueCommentToNormalized comment issue repo owner f2 n2).ParentID)) := by
  constructor
  · intro msg ch user teamID fAt nAt m hm
    unfold slackToNormalized at hm
    split at hm
    · exact absurd hm (by simp)
    · dsimp only at hm
      injection hm with hm2
      subst hm2
      refine ⟨rfl, ?_, ?_⟩
      · intro hroot
        dsimp only at hroot ⊢
        refine ⟨?_, ?_, ?_⟩
        · by_cases h0 : msg.ThreadTS = ""
          · simp [h0]
          · simp only [h0] at hroot
            simp at hroot
            simp [h0, hroot]
        · by_cases hts : msg.ThreadTS = "" <;> simp [hts]
        · by_cases hts : msg.ThreadTS = ""
          · simp only [hts]
            simp only [ne_eq, not_true_eq_false, if_false]
            exact ne_empty_of_data_head (data_head_append5 "msg_slack_" _ _ _ _ _
              'm' "sg_slack_".data rfl)
          · simp [hts]
            exact ne_of_data_heads
              (data_head_append5 "msg_slack_" _ _ _ _ _ 'm' "sg_slack_".data rfl)
              (data_head_append5 "thread_slack_" _ _ _ _ _ 't' "hread_slack_".data rfl)
              (by decide)
      · intro hroot
        dsimp only at hroot ⊢
        have hts : ¬ msg.ThreadTS = "" := by
          intro h0
          simp [h0] at hroot
        have hB : ¬ msg.ThreadTS = msg.Timestamp := by
          intro h0
          simp [h0] at hroot
        refine ⟨?_, ?_, ?_, ?_⟩
        · simp [hts, hB]
        · simp [hts]
        · simp only [hts, hB]
          simp [hts, hB]
          exact ne_of_data_heads
            (data_head_append5 "thread_slack_" _ _ _ _ _ 't' "hread_slack_".data rfl)
            (data_head_append5 "msg_slack_" _ _ _ _ _ 'm' "sg_slack_".data rfl)
            (by decide)
        · intro rmsg ch2 u2 f2 n2 r hr hrts hch2
          unfold slackToNormalized at hr
          split at hr
          · exact absurd hr (by simp)
          · dsimp only at hr
            injection hr with hr2
            subst hr2
            dsimp only
            rw [hrts, hch2]
            simp [hts, hB]
  · intro issue repo owner fAt nAt
    refine ⟨rfl, rfl, ?_, ?_⟩
    · exact ne_of_data_heads
        (data_head_append5 "msg_github_" _ _ _ _ _ 'm' "sg_github_".data rfl)
        (data_head_append5 "thread_github_" _ _ _ _ _ 't' "hread_github_".data rfl)
        (by decide)
    · intro comment f2 n2
      refine ⟨rfl, rfl, rfl, ?_⟩
      exact ne_of_data_heads
        (data_head_append5 "thread_github_" _ _ _ _ _ 't' "hread_github_".data rfl)
        (data_head_append5 "msg_github_" _ _ _ _ _ 'm' "sg_github_".data rfl)
        (by decide)

/-- Witness for the amended C3 at the concrete reply fixture `recB`
(whose parent pointer names `recA`'s timestamp). -/
theorem c3_thread_ids_amended_witness :
    msgB7.ParentID = "msg_slack_T1_C1_1700000000.000100" ∧
    msgB7.ThreadID = "thread_slack_T1_C1_1700000000.000100" ∧
    msgB7.ThreadID ≠ msgB7.ParentID ∧
    msgA7.ID = msgB7.ParentID := by
  have h := (c3_thread_ids_amended.1 recB chanC1 none "T1" "fetched" "now"
    msgB7 rfl).2.2 (by decide)
  refine ⟨?_, ?_, h.2.2.1, ?_⟩
  · rw [h.1]
    decide
  · rw [h.2.1]
    decide
  · exact h.2.2.2 recA chanC1 none "fetched" "now" msgA7 rfl (by decide) (by decide)

/-! ## C4 — thread membership -/

/-- The graph of the two-message thread fixture. -/
def c4Graph : ReplyGraph := buildFromNormalizedMessages "g0" [msgA7, msgB7]

/-- C4 (counterexample): the reply `msgB7` is non-root with
`thread_id = "thread_slack_…"`, but graph nodes are keyed by `msg_…` ids,
so `GetThread(m.thread_id)` finds no root and returns the empty sequence —
which does not contain `m`.  `GetThread(m.parent_id)` does contain it. -/
theorem c4_counterexample :
    msgB7.IsThreadRoot = false ∧
    msgB7.ThreadID = "thread_slack_T1_C1_1700000000.000100" ∧
    getThreadF c4Graph 100 msgB7.ThreadID = some [] ∧
    getThreadF c4Graph 100 msgB7.ParentID = some [mkNode msgA7, mkNode msgB7] := by
  refine ⟨by decide, by decide, by decide, by decide⟩

lemma lookupA_insertA_self {α : Type} (m : List (String × α)) (k : String) (v : α) :
    lookupA (insertA m k v) k = some v := by
  induction m with
  | nil => simp [insertA, lookupA]
  | cons e t ih =>
    by_cases h : e.1 = k
    · simp [insertA, lookupA, h]
    · simp [insertA, lookupA, h, ih]

lemma lookupA_insertA_ne {α : Type} (m : List (String × α)) (k i : String) (v : α)
    (h : i ≠ k) : lookupA (insertA m k v) i = lookupA m i := by
  induction m with
  | nil => simp [insertA, lookupA, Ne.symm h]
  | cons e t ih =>
    by_cases he : e.1 = k
    · subst he
      simp [insertA, lookupA, Ne.symm h]
    · simp only [insertA, if_neg he, lookupA]
      by_cases hei : e.1 = i
      · simp [hei]
      · simp [hei, ih]

lemma lookupA_appendAdj_self (m : List (String × List String)) (k v : String) :
    lookupA (appendAdj m k v) k = some ((lookupA m k).getD [] ++ [v]) := by
  induction m with
  | nil => simp [appendAdj, lookupA]
  | cons e t ih =>
    by_cases h : e.1 = k
    · simp [appendAdj, lookupA, h]
    · simp [appendAdj, lookupA, h, ih]

lemma lookupA_appendAdj_ne (m : List (String × List String)) (k i v : String)
    (h : i ≠ k) : lookupA (appendAdj m k v) i = lookupA m i := by
  induction m with
  | nil => simp [appendAdj, lookupA, Ne.symm h]
  | cons e t ih =>
    by_cases he : e.1 = k
    · subst he
      simp [appendAdj, lookupA, Ne.symm h]
    · simp only [appendAdj, if_neg he, lookupA]
      by_cases hei : e.1 = i
      · simp [hei]
      · simp [hei, ih]

lemma mem_children_addMessage_of_mem {g : ReplyGraph} {p cid : String}
    (now : GoTime) (x : NormalizedMessage) (h : cid ∈ getChildren g p) :
    cid ∈ getChildren (addMessage now g x) p := by
  unfold getChildren addMessage at *
  dsimp only
  split
  · by_cases hp : p = x.ParentID
    · subst hp
      rw [lookupA_appendAdj_self]
      simp only [Option.getD_some]
      exact List.mem_append_left _ h
    · rw [lookupA_appendAdj_ne _ _ _ _ hp]
      exact h
  · exact h

lemma mem_children_addMessage_self (now : GoTime) (g : ReplyGraph)
    (x : NormalizedMessage) (hx : x.ParentID ≠ "") :
    x.ID ∈ getChildren (addMessage now g x) x.ParentID := by
  unfold getChildren addMessage
  dsimp only
  rw [if_pos hx, lookupA_appendAdj_self]
  simp

lemma mem_children_foldl (now : GoTime) (xs : List NormalizedMessage) :
    ∀ (g : ReplyGraph) (p cid : String), cid ∈ getChildren g p →
      cid ∈ getChildren (xs.foldl (addMessage now) g) p := by
  induction xs with
  | nil => intro g p cid h; exact h
  | cons x t ih =>
    intro g p cid h
    exact ih _ _ _ (mem_children_addMessage_of_mem now x h)

lemma mem_children_foldl_of_mem (now : GoTime) :
    ∀ (xs : List NormalizedMessage) (g : ReplyGraph) (m : NormalizedMessage),
      m ∈ xs → m.ParentID ≠ "" →
      m.ID ∈ getChildren (xs.foldl (addMessage now) g) m.ParentID := by
  intro xs
  induction xs with
  | nil => intro g m hm _; cases hm
  | cons x t ih =>
    intro g m hm hp
    rcases List.mem_cons.mp hm with h1 | h2
    · subst h1
      exact mem_children_foldl now t _ _ _ (mem_children_addMessage_self now g m hp)
    · exact ih (addMessage now g x) m h2 hp

lemma lookupA_nodes_foldl_ne (now : GoTime) :
    ∀ (xs : List NormalizedMessage) (g : ReplyGraph) (i : String),
      (∀ x ∈ xs, x.ID ≠ i) →
      lookupA (xs.foldl (addMessage now) g).Nodes i = lookupA g.Nodes i := by
  intro xs
  induction xs with
  | nil => intro g i _; rfl
  | cons x t ih =>
    intro g i hne
    rw [List.foldl_cons,
      ih (addMessage now g x) i (fun y hy => hne y (List.mem_cons_of_mem x hy))]
    exact lookupA_insertA_ne _ _ _ _
      (fun e => hne x (List.mem_cons_self x t) (Eq.symm e))

lemma lookupA_nodes_foldl_of_mem (now : GoTime) :
    ∀ (xs : List NormalizedMessage) (g : ReplyGraph) (m : NormalizedMessage),
      (xs.map NormalizedMessage.ID).Nodup → m ∈ xs →
      lookupA (xs.foldl (addMessage now) g).Nodes m.ID = some (mkNode m) := by
  intro xs
  induction xs with
  | nil => intro g m _ hm; cases hm
  | cons x t ih =>
    intro g m hnd hm
    have hpair : (∀ y ∈ t, ¬ y.ID = x.ID) ∧
        (t.map NormalizedMessage.ID).Nodup := by simpa using hnd
    rcases List.mem_cons.mp hm with h1 | h2
    · subst h1
      have hne : ∀ y ∈ t, y.ID ≠ m.ID := fun y hy => hpair.1 y hy
      rw [List.foldl_cons, lookupA_nodes_foldl_ne now t _ _ hne]
      exact lookupA_insertA_self _ _ _
    · rw [List.foldl_cons]
      exact ih _ m hpair.2 h2

lemma collectTM_sub (g : ReplyGraph) :
    ∀ (fuel : Nat) (cs : List String) (acc l : List MessageNode),
      collectTM g fuel cs acc = some l → ∀ x ∈ acc, x ∈ l := by
  intro fuel
  induction fuel with
  | zero =>
    intro cs acc l h
    cases cs with
    | nil =>
      simp only [collectTM] at h
      cases h
      exact fun x hx => hx
    | cons c cs => simp [collectTM] at h
  | succ n ih =>
    intro cs acc l h
    cases cs with
    | nil =>
      simp only [collectTM] at h
      cases h
      exact fun x hx => hx
    | cons c cs =>
      simp only [collectTM] at h
      cases hc : lookupA g.Nodes c with
      | none =>
        rw [hc] at h
        dsimp only at h
        exact ih cs acc l h
      | some nd =>
        rw [hc] at h
        dsimp only at h
        cases hi : collectTM g n (getChildren g c) (acc ++ [nd]) with
        | none => rw [hi] at h; simp at h
        | some acc2 =>
          rw [hi] at h
          dsimp only at h
          intro x hx
          exact ih cs acc2 l h x (ih _ _ _ hi x (List.mem_append_left _ hx))

lemma collectTM_child_mem (g : ReplyGraph) :
    ∀ (fuel : Nat) (cs : List String) (acc l : List MessageNode),
      collectTM g fuel cs acc = some l →
      ∀ c ∈ cs, ∀ nd, lookupA g.Nodes c = some nd → nd ∈ l := by
  intro fuel
  induction fuel with
  | zero =>
    intro cs acc l h c hc nd _
    cases cs with
    | nil => cases hc
    | cons c' cs => simp [collectTM] at h
  | succ n ih =>
    intro cs acc l h c hc nd hnd
    cases cs with
    | nil => cases hc
    | cons c' cs =>
      simp only [collectTM] at h
      rcases List.mem_cons.mp hc with h1 | h2
      · subst h1
        rw [hnd] at h
        dsimp only at h
        cases hi : collectTM g n (getChildren g c) (acc ++ [nd]) with
        | none => rw [hi] at h; simp at h
        | some acc2 =>
          rw [hi] at h
          dsimp only at h
          have hmem : nd ∈ acc2 :=
            collectTM_sub g n _ _ _ hi nd (List.mem_append_right _ (List.mem_cons_self nd []))
          exact collectTM_sub g n _ _ _ h nd hmem
      · cases hcl : lookupA g.Nodes c' with
        | none =>
          rw [hcl] at h
          dsimp only at h
          exact ih cs acc l h c h2 nd hnd
        | some nd' =>
          rw [hcl] at h
          dsimp only at h
          cases hi : collectTM g n (getChildren g c') (acc ++ [nd']) with
          | none => rw [hi] at h; simp at h
          | some acc2 =>
            rw [hi] at h
            dsimp only at h
            exact ih cs acc2 l h c h2 nd hnd

/-- C4 (amended): in a graph built from messages with pairwise-distinct
ids, every non-root message `m` whose parent is present in the graph
appears in any completed `GetThread(m.parent_id)` traversal.  (The claim's
`GetThread(m.thread_id)` call finds nothing: thread ids are
`thread_`-prefixed and are never node keys — see the counterexample.) -/
theorem c4_thread_membership_amended
    (now : GoTime) (msgs : List NormalizedMessage) (m : NormalizedMessage)
    (fuel : Nat) (l : List MessageNode)
    (hnd : (msgs.map NormalizedMessage.ID).Nodup)
    (hm : m ∈ msgs) (hp : m.ParentID ≠ "")
    (hpresent : lookupA (buildFromNormalizedMessages now msgs).Nodes m.ParentID ≠ none)
    (hl : getThreadF (buildFromNormalizedMessages now msgs) fuel m.ParentID = some l) :
    mkNode m ∈ l := by
  unfold getThreadF at hl
  cases hroot : lookupA (buildFromNormalizedMessages now msgs).Nodes m.ParentID with
  | none => exact absurd hroot hpresent
  | some root =>
    rw [hroot] at hl
    exact collectTM_child_mem _ fuel _ _ l hl m.ID
      (mem_children_foldl_of_mem now msgs _ m hm hp)
      (mkNode m) (lookupA_nodes_foldl_of_mem now msgs _ m hnd hm)

/-- Witness for the amended C4 at the two-message fixture. -/
theorem c4_thread_membership_amended_witness :
    mkNode msgB7 ∈ [mkNode msgA7, mkNode msgB7] :=
  c4_thread_membership_amended "g0" [msgA7, msgB7] msgB7 100
    [mkNode msgA7, mkNode msgB7]
    (by decide) (by decide) (by decide) (by decide) (by decide)

/-! ## C9 / C10 — classifier result invariants -/

/-- The shared result-guard pattern of the question / solution /
acknowledgment detectors: empty-signal discard, cap at 1, floor discard. -/
lemma detector_guard {sig : List String} {conf floor : ℚ} {ty : String}
    {c : Classification} (hfloor : 0 < floor)
    (h : (if sig = [] then none
          else if (if conf > 1 then 1 else conf) < floor then none
          else some ⟨ty, if conf > 1 then 1 else conf, sig⟩) = some c) :
    c.ctype = ty ∧ 0 < c.Confidence ∧ c.Confidence ≤ 1 ∧ c.Signals ≠ [] := by
  split at h
  · exact absurd h (by simp)
  · rename_i hsig
    by_cases hcap : conf > 1
    · rw [if_pos hcap] at h
      by_cases hfl : (1 : ℚ) < floor
      · rw [if_pos hfl] at h
        exact absurd h (by simp)
      · rw [if_neg hfl] at h
        injection h with h2
        subst h2
        exact ⟨rfl, by norm_num, le_refl 1, hsig⟩
    · rw [if_neg hcap] at h
      by_cases hfl : conf < floor
      · rw [if_pos hfl] at h
        exact absurd h (by simp)
      · rw [if_neg hfl] at h
        injection h with h2
        subst h2
        exact ⟨rfl, lt_of_lt_of_le hfloor (not_lt.mp hfl), le_of_not_lt hcap, hsig⟩

/-- The result guard of the answer detector: at least two signals, cap
at 1; positivity comes from the caller (base confidence 0.3). -/
lemma answer_guard {sig : List String} {conf : ℚ} {c : Classification}
    (hpos : 0 < conf)
    (h : (if sig.length ≤ 1 then none
          else some ⟨"answer", if conf > 1 then 1 else conf, sig⟩) = some c) :
    c.ctype = "answer" ∧ 0 < c.Confidence ∧ c.Confidence ≤ 1 ∧ c.Signals ≠ [] := by
  by_cases hlen : sig.length ≤ 1
  · rw [if_pos hlen] at h
    exact absurd h (by simp)
  · rw [if_neg hlen] at h
    injection h with h2
    subst h2
    refine ⟨rfl, ?_, ?_, ?_⟩
    · show (0 : ℚ) < if conf > 1 then 1 else conf
      by_cases hcap : conf > 1
      · rw [if_pos hcap]
        norm_num
      · rw [if_neg hcap]
        exact hpos
    · show (if conf > 1 then 1 else conf) ≤ 1
      by_cases hcap : conf > 1
      · rw [if_pos hcap]
      · rw [if_neg hcap]
        exact le_of_not_lt hcap
    · show sig ≠ []
      intro he
      rw [he] at hlen
      exact hlen (by simp)

lemma classifyQuestion_some {msg : NormalizedMessage} {c : Classification}
    (h : classifyQuestion msg = some c) :
    c.ctype = "question" ∧ 0 < c.Confidence ∧ c.Confidence ≤ 1 ∧ c.Signals ≠ [] := by
  simp only [classifyQuestion] at h
  exact detector_guard (by norm_num) h

lemma classifySolution_some {msg : NormalizedMessage} {c : Classification}
    (h : classifySolution msg = some c) :
    c.ctype = "solution" ∧ 0 < c.Confidence ∧ c.Confidence ≤ 1 ∧ c.Signals ≠ [] := by
  simp only [classifySolution] at h
  exact detector_guard (by norm_num) h

lemma classifyAcknowledgment_some {msg : NormalizedMessage} {c : Classification}
    (h : classifyAcknowledgment msg = some c) :
    c.ctype = "acknowledgment" ∧ 0 < c.Confidence ∧ c.Confidence ≤ 1 ∧
      c.Signals ≠ [] := by
  simp only [classifyAcknowledgment] at h
  exact detector_guard (by norm_num) h

lemma classifyAnswer_some {msg : NormalizedMessage} {ctx : ThreadContext}
    {c : Classification} (h : classifyAnswer msg ctx = some c) :
    c.ctype = "answer" ∧ 0 < c.Confidence ∧ c.Confidence ≤ 1 ∧ c.Signals ≠ [] := by
  simp only [classifyAnswer] at h
  by_cases h1 : (!ctx.HasQuestion) = true
  · rw [if_pos h1] at h
    exact absurd h (by simp)
  · rw [if_neg h1] at h
    by_cases h2 : ctx.IsThreadRoot = true
    · rw [if_pos h2] at h
      exact absurd h (by simp)
    · rw [if_neg h2] at h
      refine answer_guard ?_ h
      cases hm1 : answerPhrases.find? (fun ph => strContains (goToLower msg.Content) ph) <;>
        simp only [hm1] <;> split_ifs <;> norm_num

/-- C10 (confirmed): every classification returned by `ClassifyMessage`
has confidence in `(0, 1]` and a non-empty signal list (each detector
discards empty-signal or below-floor results and caps at 1.0). -/
theorem c10_classification_bounds (msg : NormalizedMessage)
    (ctx : Option ThreadContext) :
    ∀ c ∈ classifyMessage msg ctx,
      0 < c.Confidence ∧ c.Confidence ≤ 1 ∧ c.Signals ≠ [] := by
  intro c hc
  unfold classifyMessage at hc
  rcases List.mem_append.mp hc with hc123 | hc4
  · rcases List.mem_append.mp hc123 with hc12 | hc3
    · rcases List.mem_append.mp hc12 with hc1 | hc2
      · have hq : classifyQuestion msg = some c := by
          cases hcq : classifyQuestion msg <;> simp [hcq] at hc1
          simp [hc1]
        exact (classifyQuestion_some hq).2
      · cases ctx with
        | none => simp at hc2
        | some ctxv =>
          have ha : classifyAnswer msg ctxv = some c := by
            cases hca : classifyAnswer msg ctxv <;> simp [hca] at hc2
            simp [hc2]
          exact (classifyAnswer_some ha).2
    · have hs : classifySolution msg = some c := by
        cases hcs : classifySolution msg <;> simp [hcs] at hc3
        simp [hc3]
      exact (classifySolution_some hs).2
  · have hk : classifyAcknowledgment msg = some c := by
      cases hck : classifyAcknowledgment msg <;> simp [hck] at hc4
      simp [hc4]
    exact (classifyAcknowledgment_some hk).2

/-- Witness for C10 at a concrete message. -/
theorem c10_classification_bounds_witness :
    0 < (⟨"acknowledgment", 0.3, ["thanks:ty"]⟩ : Classification).Confidence ∧
    (⟨"acknowledgment", 0.3, ["thanks:ty"]⟩ : Classification).Confidence ≤ 1 ∧
    (⟨"acknowledgment", 0.3, ["thanks:ty"]⟩ : Classification).Signals ≠ [] :=
  c10_classification_bounds (plainMsg "ty so much!") none
    ⟨"acknowledgment", 0.3, ["thanks:ty"]⟩ (by decide)

/-- C9 (confirmed): with no thread context `ClassifyMessage` never returns
an `answer` classification (the answer detector runs only under a
context), and the answer detector returns nothing when the context has
`HasQuestion = false` or `IsThreadRoot = true`. -/
theorem c9_no_answer_without_context :
    (∀ (msg : NormalizedMessage), ∀ c ∈ classifyMessage msg none,
      c.ctype ≠ "answer") ∧
    (∀ (msg : NormalizedMessage) (ctx : ThreadContext),
      ctx.HasQuestion = false ∨ ctx.IsThreadRoot = true →
      classifyAnswer msg ctx = none) := by
  constructor
  · intro msg c hc
    unfold classifyMessage at hc
    rcases List.mem_append.mp hc with hc123 | hc4
    · rcases List.mem_append.mp hc123 with hc12 | hc3
      · rcases List.mem_append.mp hc12 with hc1 | hc2
        · have hq : classifyQuestion msg = some c := by
            cases hcq : classifyQuestion msg <;> simp [hcq] at hc1
            simp [hc1]
          rw [(classifyQuestion_some hq).1]
          decide
        · simp at hc2
      · have hs : classifySolution msg = some c := by
          cases hcs : classifySolution msg <;> simp [hcs] at hc3
          simp [hc3]
        rw [(classifySolution_some hs).1]
        decide
    · have hk : classifyAcknowledgment msg = some c := by
        cases hck : classifyAcknowledgment msg <;> simp [hck] at hc4
        simp [hc4]
      rw [(classifyAcknowledgment_some hk).1]
      decide
  · intro msg ctx h
    unfold classifyAnswer
    rcases h with h | h
    · simp [h]
    · simp [h]

/-- Witness for C9 at concrete inputs. -/
theorem c9_no_answer_without_context_witness :
    (⟨"acknowledgment", 0.3, ["thanks:ty"]⟩ : Classification).ctype ≠ "answer" ∧
    classifyAnswer (plainMsg "try this") ⟨false, "", false, 0⟩ = none :=
  ⟨c9_no_answer_without_context.1 (plainMsg "ty so much!")
      ⟨"acknowledgment", 0.3, ["thanks:ty"]⟩ (by decide),
   c9_no_answer_without_context.2 (plainMsg "try this") ⟨false, "", false, 0⟩
      (Or.inl rfl)⟩

end ThreadMine
